import Mathlib

/-!
Verification of the GetSolar demo repository's retrieval subsystem and
surrounding glue code, shallowly embedded in Lean 4.

The embedding covers:
* `src/ai-chatbot/src/rag/config.py` — retrieval constants;
* `src/ai-chatbot/src/rag/retrievers.py` — `create_hybrid_retriever`;
* `src/ai-chatbot/src/rag/document_loader.py` — `load_documents_from_json`;
* `src/ai-chatbot/src/rag/main.py` — `get_context` and the `rag` tool's
  context construction;
* `src/ai-chatbot/src/crm/main.py` — the leads schema, `save_lead`'s INSERT
  and `analyze_conversation`'s error fallback;
* `src/ai-chatbot/src/mail/main.py` — error fallbacks of the mail tools;
* `src/swe-agent/agent/state.py` — `ConversationMemory`;
* the thread-creation sites of the whole source tree.
-/

/-- A document's metadata: string-keyed, string-valued pairs (the subset of the
JSON metadata objects that the code ever reads: `metadata.get(key, default)`
with string defaults). -/
def Metadata : Type := List (String × String)

instance : DecidableEq Metadata := by
  unfold Metadata
  infer_instance

instance : Membership (String × String) Metadata := by
  unfold Metadata
  infer_instance

/-- `m.get(key, dflt)` on a Python dict represented as an association list:
the value of the first pair whose key matches, else the default. -/
def Metadata.mget (m : Metadata) (key dflt : String) : String :=
  match List.find? (fun kv => kv.1 == key) m with
  | some kv => kv.2
  | none => dflt

/-- `langchain_core.documents.Document` as the repository uses it: a page
content string and a metadata mapping. -/
structure Document where
  pageContent : String
  metadata : Metadata
deriving DecidableEq

/-! ### rag/config.py -/

/-- `FAISS_K = 5` in `rag/config.py`. -/
def FAISS_K : Nat := 5

/-- `BM25_K = 5` in `rag/config.py`. -/
def BM25_K : Nat := 5

/-- `ENSEMBLE_WEIGHTS = [0.8, 0.2]  # faiss weight, bm25 weight` in
`rag/config.py`.  Floats are modelled as exact rationals. -/
def ENSEMBLE_WEIGHTS : List ℚ := [0.8, 0.2]

/-! ### rag/retrievers.py -/

/-- The two kinds of underlying retrievers configured by
`create_hybrid_retriever`: the FAISS dense vector-similarity retriever and
the BM25 sparse keyword retriever. -/
inductive RetrieverKind where
  | faiss
  | bm25
deriving DecidableEq

/-- Configuration of one underlying retriever: its kind and its `k`
(maximum number of documents it returns). -/
structure RetrieverConfig where
  kind : RetrieverKind
  k : Nat
deriving DecidableEq

/-- Configuration of the `EnsembleRetriever` built by
`create_hybrid_retriever`: the list of underlying retrievers and the fusion
weights, positionally aligned. -/
structure EnsembleRetrieverConfig where
  retrievers : List RetrieverConfig
  weights : List ℚ
deriving DecidableEq

/-- `create_hybrid_retriever` from `rag/retrievers.py`: a FAISS similarity
retriever with `k = FAISS_K`, a BM25 retriever with `k = BM25_K`, combined
into an `EnsembleRetriever` with weights `ENSEMBLE_WEIGHTS`. -/
def create_hybrid_retriever : EnsembleRetrieverConfig :=
  { retrievers := [⟨RetrieverKind.faiss, FAISS_K⟩, ⟨RetrieverKind.bm25, BM25_K⟩],
    weights := ENSEMBLE_WEIGHTS }

/-! ### The ensemble fusion

The repository merges the two retrievers through the third-party
`EnsembleRetriever` (not part of this repository's source). -/

/-- The constant `c = 60` of the ensemble's weighted reciprocal-rank scoring. -/
def RRF_C : ℚ := 60

/-- Modelled from the spec: the "weighted score fusion" performed by the
third-party `EnsembleRetriever` that `create_hybrid_retriever` configures
(its implementation is not in the repository).  Score of a document key:
for each ranked list (paired with its weight), the weight divided by
(rank + c) at every position where the key occurs, summed over all lists. -/
def rrfScore (docLists : List (List Document)) (weights : List ℚ) (key : String) : ℚ :=
  ((docLists.zip weights).map (fun lw =>
    ((lw.1.enumFrom 1).map (fun rd =>
      if rd.2.pageContent = key then lw.2 / ((rd.1 : ℚ) + RRF_C) else 0)).sum)).sum

/-- Deduplication by page content, keeping the first occurrence of each
content; `seen` accumulates the contents already emitted. -/
def uniqueByKey : List Document → List String → List Document
  | [], _ => []
  | d :: ds, seen =>
    if d.pageContent ∈ seen then uniqueByKey ds seen
    else d :: uniqueByKey ds (d.pageContent :: seen)

/-- Modelled from the spec: the ranked merge of the underlying retrievers'
outputs — concatenate the ranked lists, deduplicate by page content
(first occurrence wins), and stably sort by descending fused score. -/
def weightedReciprocalRank (docLists : List (List Document)) (weights : List ℚ) : List Document :=
  (uniqueByKey docLists.flatten []).mergeSort
    (fun a b => decide (rrfScore docLists weights b.pageContent ≤ rrfScore docLists weights a.pageContent))

/-- The hybrid retriever's result for fixed underlying outputs: the dense
(FAISS) ranking and the sparse (BM25) ranking fused with `ENSEMBLE_WEIGHTS`. -/
def hybridResults (dense bm25 : List Document) : List Document :=
  weightedReciprocalRank [dense, bm25] ENSEMBLE_WEIGHTS

/-! ### rag/main.py — get_context -/

/-- One entry of `get_context`'s result: the dict
`{"rank": i+1, "content": ..., "metadata": ..., "source": ..., "title": ...}`. -/
structure ContextEntry where
  rank : Nat
  content : String
  metadata : Metadata
  source : String
  title : String
deriving DecidableEq

/-- The dict built for the document at zero-based position `i` of the
retriever's results, in `get_context`'s loop body. -/
def formatEntry (i : Nat) (d : Document) : ContextEntry :=
  { rank := i + 1
    content := d.pageContent
    metadata := d.metadata
    source := d.metadata.mget "sourceURL" "unknown"
    title := d.metadata.mget "title" "untitled" }

/-- `get_context`'s formatting loop (`for i, doc in enumerate(results)`),
with `n` the index of the first element. -/
def formatResults : Nat → List Document → List ContextEntry
  | _, [] => []
  | n, d :: ds => formatEntry n d :: formatResults (n + 1) ds

/-- `get_context` from `rag/main.py`, as a function of the fixed underlying
retriever outputs: fuse them through the hybrid retriever, then format each
result with its 1-based rank. -/
def get_context (dense bm25 : List Document) : List ContextEntry :=
  formatResults 0 (hybridResults dense bm25)

/-! ### rag/main.py — the rag tool's context construction -/

/-- The context block built for the document at zero-based position `i` in
the `rag` tool: `f"[{i+1}] {d.metadata.get('title','')}\n{d.page_content}"`. -/
def ragEntry (i : Nat) (d : Document) : String :=
  "[" ++ toString (i + 1) ++ "] " ++ d.metadata.mget "title" "" ++ "\n" ++ d.pageContent

/-- The `rag` tool's generator `(... for i, d in enumerate(docs[:5]))`,
before truncation is applied; `n` is the index of the first element. -/
def ragEntries : Nat → List Document → List String
  | _, [] => []
  | n, d :: ds => ragEntry n d :: ragEntries (n + 1) ds

/-- The CONTEXT string the `rag` tool passes to the answering LLM:
`"\n\n---\n\n".join(f"[{i+1}] ..." for i, d in enumerate(docs[:5]))`. -/
def ragContext (docs : List Document) : String :=
  String.intercalate "\n\n---\n\n" (ragEntries 0 (docs.take 5))

/-! ### rag/document_loader.py -/

/-- One element of the input JSON's `"data"` array, restricted to the three
fields `load_documents_from_json` reads.  `none` models an absent key, so
`Option.getD` is exactly `dict.get(key, default)` for these string/object
valued fields. -/
structure Page where
  markdown : Option String
  content : Option String
  metadata : Option Metadata

/-- The parsed JSON input of `load_documents_from_json`: an object with a
`"data"` array (the function reads `raw["data"]` and nothing else). -/
structure RawData where
  data : List Page

/-- `load_documents_from_json` from `rag/document_loader.py`, with the file
read and JSON parse replaced by the parsed value: one `Document` per element
of `raw["data"]`, in order, with
`page_content = page.get("markdown", page.get("content", ""))` and
`metadata = page.get("metadata", {})`. -/
def load_documents_from_json (raw : RawData) : List Document :=
  raw.data.map (fun page =>
    { pageContent := page.markdown.getD (page.content.getD "")
      metadata := page.metadata.getD [] })

/-! ### crm/main.py — schema, LeadScoring and save_lead's INSERT -/

/-- The pydantic `LeadScoring` model of `crm/main.py`. -/
structure LeadScoring where
  lead_quality : String
  interest_level : Int
  readiness_to_buy : String
  reasoning : String
deriving DecidableEq

/-- A SQLite value as far as the leads table is concerned. -/
inductive SqlValue where
  | null
  | text (s : String)
  | int (n : Int)
deriving DecidableEq

/-- The columns of the `leads` table exactly as `init_database`'s
`CREATE TABLE IF NOT EXISTS leads (...)` declares them: name and
declared type, in declaration order. -/
def leadsSchemaColumns : List (String × String) :=
  [("id", "INTEGER PRIMARY KEY AUTOINCREMENT"),
   ("thread_id", "TEXT"),
   ("name", "TEXT"),
   ("email", "TEXT"),
   ("phone", "TEXT"),
   ("lead_quality", "TEXT"),
   ("interest_level", "INTEGER"),
   ("readiness_to_buy", "TEXT"),
   ("scoring_reasoning", "TEXT"),
   ("conversation_summary", "TEXT"),
   ("full_conversation", "TEXT"),
   ("created_at", "TIMESTAMP DEFAULT CURRENT_TIMESTAMP"),
   ("updated_at", "TIMESTAMP DEFAULT CURRENT_TIMESTAMP")]

/-- The column list named by `save_lead`'s `INSERT INTO leads (...)`,
in the INSERT's order. -/
def saveLeadInsertColumns : List String :=
  ["thread_id", "name", "email", "phone", "lead_quality", "interest_level",
   "scoring_reasoning", "conversation_summary", "full_conversation"]

/-- The column/value pairs `save_lead` binds in its INSERT: the contact
fields, then `scoring.lead_quality`, `scoring.interest_level`,
`scoring.reasoning`, the summary and the serialized conversation. -/
def saveLeadInsertValues (threadId name email phone : String)
    (scoring : LeadScoring) (summary fullConversation : String) :
    List (String × SqlValue) :=
  [("thread_id", SqlValue.text threadId),
   ("name", SqlValue.text name),
   ("email", SqlValue.text email),
   ("phone", SqlValue.text phone),
   ("lead_quality", SqlValue.text scoring.lead_quality),
   ("interest_level", SqlValue.int scoring.interest_level),
   ("scoring_reasoning", SqlValue.text scoring.reasoning),
   ("conversation_summary", SqlValue.text summary),
   ("full_conversation", SqlValue.text fullConversation)]

/-- SQLite's default for a column the INSERT does not name: the declared
DEFAULT for the timestamp columns, NULL otherwise (the autoincrement id is
abstracted as its NULL-triggered default). -/
def columnDefault (col : String) : SqlValue :=
  if col = "created_at" ∨ col = "updated_at" then SqlValue.text "CURRENT_TIMESTAMP"
  else SqlValue.null

/-- The value stored in column `col` of the row `save_lead` inserts: the
bound value when the INSERT names the column, the schema default otherwise. -/
def insertedRowValue (vals : List (String × SqlValue)) (col : String) : SqlValue :=
  match List.find? (fun kv => kv.1 == col) vals with
  | some kv => kv.2
  | none => columnDefault col

/-! ### Error handlers around third-party calls

Each handler is embedded as a function of the outcome of the wrapped
third-party call (`Except.ok` = the call returned, `Except.error e` = the
call raised with message `e`), returning the lines it prints and its own
outcome (`Except.error` = the exception propagates to the caller). -/

/-- `get_context`'s try/except: on success format the results; on an
exception print `[retrieve_context] error: ...` and re-raise (`raise`). -/
def run_get_context (call : Except String (List Document)) :
    List String × Except String (List ContextEntry) :=
  match call with
  | Except.ok docs => ([], Except.ok (formatResults 0 docs))
  | Except.error e => (["[retrieve_context] error: " ++ e], Except.error e)

/-- The `rag` tool's try/except: on success return the answering LLM's
response over the context built from the first five documents; on an
exception print `[rag_answer] error: ...` and re-raise (`raise`). -/
def run_rag (call : Except String (List Document)) (llmResponse : String) :
    List String × Except String String :=
  match call with
  | Except.ok _ => ([], Except.ok llmResponse)
  | Except.error e => (["[rag_answer] error: " ++ e], Except.error e)

/-- The contact-record dict `{"name": ..., "email": ..., "phone": ...}`. -/
structure ContactRecord where
  name : String
  email : String
  phone : String
deriving DecidableEq

/-- `extract_contact_info`'s try/except: on success return the extracted
record; on an exception print the error and return the all-empty record. -/
def run_extract_contact_info (call : Except String ContactRecord) :
    List String × Except String ContactRecord :=
  match call with
  | Except.ok c => (["[extract_contact_info] Extracted"], Except.ok c)
  | Except.error e => (["[extract_contact_info] Error: " ++ e], Except.ok ⟨"", "", ""⟩)

/-- `send_consultation_confirmation`'s try/except around building and
SMTP-sending the email: on success return the confirmation message; on an
exception print the error and return the fixed failure string. -/
def run_send_consultation_confirmation (email : String) (call : Except String Unit) :
    List String × Except String String :=
  match call with
  | Except.ok _ =>
    (["[send_confirmation_email] Successfully sent to " ++ email],
     Except.ok ("Confirmation email sent to " ++ email ++ "! Please check your inbox."))
  | Except.error e =>
    (["[send_confirmation_email] Error: " ++ e],
     Except.ok "Failed to send confirmation email. Please contact us directly at hello@getsolar.ai")

/-- `CRMDatabase.analyze_conversation`'s try/except around the structured
LLM call: on success return its scoring; on an exception print
`[CRM] Error in lead scoring: ...` and return the fixed fallback scoring. -/
def run_analyze_conversation (call : Except String LeadScoring) :
    List String × Except String LeadScoring :=
  match call with
  | Except.ok s => ([], Except.ok s)
  | Except.error e =>
    (["[CRM] Error in lead scoring: " ++ e],
     Except.ok ⟨"warm", 5, "unknown", "Automatic scoring due to analysis error: " ++ e⟩)

/-- The `save_lead_to_crm` tool's try/except: on success return the
confirmation text built from the scoring (abbreviated to its first line
here); on an exception return the error string. -/
def run_save_lead_to_crm (call : Except String LeadScoring) :
    List String × Except String String :=
  match call with
  | Except.ok _ => ([], Except.ok "✅ Lead saved to CRM successfully!")
  | Except.error e => ([], Except.ok (" Error saving lead to CRM: " ++ e))

/-- The operations of the cited source files that wrap a third-party call
(retriever, LLM, SMTP) in a generic `except Exception` handler. -/
inductive Handler where
  | getContext
  | ragTool
  | extractContactInfo
  | sendConsultationConfirmation
  | analyzeConversation
  | saveLeadToCrm
deriving DecidableEq

/-- Whether an embedded outcome is a propagated exception. -/
def isError {α : Type} : Except String α → Bool
  | Except.error _ => true
  | Except.ok _ => false

/-- The lines a handler prints when its wrapped call raises `e`. -/
def errorOutput (h : Handler) (e : String) : List String :=
  match h with
  | Handler.getContext => (run_get_context (Except.error e)).1
  | Handler.ragTool => (run_rag (Except.error e) "").1
  | Handler.extractContactInfo => (run_extract_contact_info (Except.error e)).1
  | Handler.sendConsultationConfirmation =>
    (run_send_consultation_confirmation "user@example.com" (Except.error e)).1
  | Handler.analyzeConversation => (run_analyze_conversation (Except.error e)).1
  | Handler.saveLeadToCrm => (run_save_lead_to_crm (Except.error e)).1

/-- Whether a handler propagates the exception to its caller when its
wrapped call raises `e`. -/
def propagatesOnError (h : Handler) (e : String) : Bool :=
  match h with
  | Handler.getContext => isError (run_get_context (Except.error e)).2
  | Handler.ragTool => isError (run_rag (Except.error e) "").2
  | Handler.extractContactInfo => isError (run_extract_contact_info (Except.error e)).2
  | Handler.sendConsultationConfirmation =>
    isError (run_send_consultation_confirmation "user@example.com" (Except.error e)).2
  | Handler.analyzeConversation => isError (run_analyze_conversation (Except.error e)).2
  | Handler.saveLeadToCrm => isError (run_save_lead_to_crm (Except.error e)).2

/-- Whether a handler produces a fallback when its wrapped call raises `e`:
it prints something, or it returns a value instead of propagating. -/
def producesFallbackOnError (h : Handler) (e : String) : Bool :=
  !(errorOutput h e).isEmpty || !(propagatesOnError h e)

/-! ### swe-agent/agent/state.py — ConversationMemory -/

/-- One exchange dict: `{"user": ..., "agent": ..., "timestamp": ...}`. -/
structure Exchange where
  user : String
  agent : String
  timestamp : String
deriving DecidableEq

/-- `ConversationMemory`'s state: the `max_history` bound and the list of
stored exchanges, oldest first. -/
structure ConversationMemory where
  max_history : Nat
  exchanges : List Exchange
deriving DecidableEq

/-- Python's `l[-k:]`: the last `k` elements — except that `l[-0:]` is the
whole list (the `-0` quirk is kept because `max_history = 0` hits it). -/
def pySliceLastK {α : Type} (l : List α) (k : Nat) : List α :=
  if k = 0 then l else l.drop (l.length - k)

/-- `ConversationMemory.__init__`: the given bound, no exchanges. -/
def initMemory (max_history : Nat) : ConversationMemory :=
  { max_history := max_history, exchanges := [] }

/-- `add_exchange`: append the new exchange, then truncate to the last
`max_history` exchanges when the length exceeds `max_history`. -/
def addExchange (m : ConversationMemory) (userInput agentResponse timestamp : String) :
    ConversationMemory :=
  let ex := m.exchanges ++ [⟨userInput, agentResponse, timestamp⟩]
  if m.max_history < ex.length then
    { m with exchanges := pySliceLastK ex m.max_history }
  else
    { m with exchanges := ex }

/-- In-place update of the `"agent"` field of the last element
(`self.exchanges[-1]["agent"] = agent_response`). -/
def setLastAgent : List Exchange → String → List Exchange
  | [], _ => []
  | [e], r => [{ e with agent := r }]
  | e :: es, r => e :: setLastAgent es r

/-- `update_last_response`: rewrite the last exchange's agent response when
any exchange is stored, otherwise do nothing. -/
def updateLastResponse (m : ConversationMemory) (agentResponse : String) :
    ConversationMemory :=
  { m with exchanges := setLastAgent m.exchanges agentResponse }

/-- `get_history`: a copy of the stored exchanges. -/
def getHistory (m : ConversationMemory) : List Exchange :=
  m.exchanges

/-- `clear`: drop all exchanges. -/
def clearMemory (m : ConversationMemory) : ConversationMemory :=
  { m with exchanges := [] }

/-- The 100-character preview `get_context_summary` shows of a user turn. -/
def preview (s : String) : String :=
  if 100 < s.length then s.take 100 ++ "..." else s

/-- `get_context_summary`: `"no conversation history"` when empty, else the
last three exchanges' user turns, numbered from 1. -/
def getContextSummary (m : ConversationMemory) : String :=
  if m.exchanges = [] then "no conversation history"
  else
    String.intercalate "\n"
      (((m.exchanges.drop (m.exchanges.length - 3)).enumFrom 1).map
        (fun p => toString p.1 ++ ". user: " ++ preview p.2.user))

/-- The operations of `ConversationMemory`'s public interface. -/
inductive MemOp where
  | add (u a t : String)
  | updateLast (a : String)
  | getHist
  | clear
  | summary
deriving DecidableEq

/-- The state after one operation (`get_history` and `get_context_summary`
read the state without changing it). -/
def applyOp (m : ConversationMemory) : MemOp → ConversationMemory
  | MemOp.add u a t => addExchange m u a t
  | MemOp.updateLast a => updateLastResponse m a
  | MemOp.getHist => m
  | MemOp.clear => clearMemory m
  | MemOp.summary => m

/-- The state after a sequence of operations. -/
def runOps (m : ConversationMemory) : List MemOp → ConversationMemory
  | [] => m
  | op :: ops => runOps (applyOp m op) ops

/-! ### Thread-creation sites of the source tree

A static inventory, read off the whole source: every place where code of
this repository causes work to run on a thread other than the caller's. -/

/-- A source location that makes code run on another thread. -/
structure ThreadSite where
  file : String
  symbol : String
  mechanism : String
deriving DecidableEq

/-- The complete list of such sites in the source tree: `record_audio`'s
console-input stopper thread, and `SWEAgent.process_async`, which runs the
graph invocation on an asyncio executor worker thread. -/
def threadSites : List ThreadSite :=
  [⟨"ai-chatbot/src/ai-voice-agent.py", "record_audio",
    "threading.Thread(target=wait_for_enter)"⟩,
   ⟨"swe-agent/agent/core.py", "SWEAgent.process_async",
    "asyncio.to_thread(self.agent_graph.invoke, ...)"⟩]

/-! ### Concrete sample inputs (used by witnesses) -/

/-- A sample retrieved document with title and source metadata. -/
def docA : Document := ⟨"alpha", [("title", "A"), ("sourceURL", "http://a")]⟩

/-- A second sample document with empty metadata. -/
def docB : Document := ⟨"beta", []⟩

/-- Six documents with pairwise distinct contents. -/
def sampleSix : List Document :=
  [⟨"c1", []⟩, ⟨"c2", []⟩, ⟨"c3", []⟩, ⟨"c4", []⟩, ⟨"c5", []⟩, ⟨"c6", []⟩]

/-- A sample scraped page carrying both a markdown and a content field. -/
def samplePage : Page := ⟨some "md", some "body", none⟩

/-- A sample parsed scrape result with a single page. -/
def sampleRaw : RawData := ⟨[samplePage]⟩

/-! ## Theorems -/

/-- C3: `create_hybrid_retriever` combines exactly two retrievers — a dense
FAISS vector-similarity retriever with `k = 5` and a sparse BM25 keyword
retriever with `k = 5` — merged by a single weighted fusion with weight 0.8
on the dense retriever and 0.2 on BM25. -/
theorem hybrid_retriever_configuration :
    create_hybrid_retriever.retrievers.length = 2 ∧
    create_hybrid_retriever.retrievers =
      [⟨RetrieverKind.faiss, 5⟩, ⟨RetrieverKind.bm25, 5⟩] ∧
    create_hybrid_retriever.weights = [0.8, 0.2] ∧
    create_hybrid_retriever.retrievers.zip create_hybrid_retriever.weights =
      [(⟨RetrieverKind.faiss, 5⟩, 0.8), (⟨RetrieverKind.bm25, 5⟩, 0.2)] :=
  ⟨rfl, rfl, rfl, rfl⟩

/-- C6 counterexample: the `leads` table created by `init_database` does not
have five columns. -/
theorem leads_schema_not_five_columns : ¬ leadsSchemaColumns.length = 5 := by
  decide

/-- C6 amended: the `leads` table created by `init_database` has thirteen
leaf columns. -/
theorem leads_schema_thirteen_columns : leadsSchemaColumns.length = 13 := by
  rfl

/-- C8: the row inserted by `save_lead` never writes `readiness_to_buy` —
the column stays at its NULL default — although the schema declares the
column and the computed scoring carries a `readiness_to_buy` value; the
other computed scoring fields (`lead_quality`, `interest_level`,
`reasoning`) are persisted. -/
theorem save_lead_omits_readiness_to_buy (threadId name email phone : String)
    (scoring : LeadScoring) (summary fullConversation : String) :
    ("readiness_to_buy", "TEXT") ∈ leadsSchemaColumns ∧
    "readiness_to_buy" ∉ saveLeadInsertColumns ∧
    insertedRowValue
      (saveLeadInsertValues threadId name email phone scoring summary fullConversation)
      "readiness_to_buy" = SqlValue.null ∧
    insertedRowValue
      (saveLeadInsertValues threadId name email phone scoring summary fullConversation)
      "lead_quality" = SqlValue.text scoring.lead_quality ∧
    insertedRowValue
      (saveLeadInsertValues threadId name email phone scoring summary fullConversation)
      "interest_level" = SqlValue.int scoring.interest_level ∧
    insertedRowValue
      (saveLeadInsertValues threadId name email phone scoring summary fullConversation)
      "scoring_reasoning" = SqlValue.text scoring.reasoning :=
  ⟨by decide, by decide, rfl, rfl, rfl, rfl⟩

/-- C7 counterexample: not every thread-creation site of the source is
`record_audio`'s stopper thread — `SWEAgent.process_async` also runs work on
another thread, through `asyncio.to_thread`. -/
theorem thread_sites_not_only_recorder :
    ¬ (∀ s ∈ threadSites, s.symbol = "record_audio") := by
  decide

/-- C7 amended: the source has exactly two sites that run code on another
thread: the only explicit `threading.Thread` is `record_audio`'s console
stopper, and the only other site is `SWEAgent.process_async`, which runs the
graph invocation on an asyncio executor worker thread. -/
theorem thread_sites_inventory :
    threadSites.length = 2 ∧
    (threadSites.filter
      (fun s => s.mechanism == "threading.Thread(target=wait_for_enter)")).map
      ThreadSite.symbol = ["record_audio"] ∧
    (threadSites.filter
      (fun s => s.mechanism != "threading.Thread(target=wait_for_enter)")).map
      ThreadSite.symbol = ["SWEAgent.process_async"] := by
  decide

/-- C2: retrieval is deterministic — over the same fixed dense-retriever
output and the same BM25 output, the weighted fusion and `get_context`'s
formatting produce identical ranked results. -/
theorem retrieval_deterministic (dense₁ bm25₁ dense₂ bm25₂ : List Document)
    (hdense : dense₁ = dense₂) (hbm : bm25₁ = bm25₂) :
    hybridResults dense₁ bm25₁ = hybridResults dense₂ bm25₂ ∧
    get_context dense₁ bm25₁ = get_context dense₂ bm25₂ := by
  subst hdense
  subst hbm
  exact ⟨rfl, rfl⟩

/-- C2 witness: determinism applied to two concrete runs over the same
underlying rankings. -/
theorem retrieval_deterministic_witness :
    hybridResults [docA] [docB] = hybridResults [docA] [docB] ∧
    get_context [docA] [docB] = get_context [docA] [docB] :=
  retrieval_deterministic [docA] [docB] [docA] [docB] rfl rfl

/-- C5 counterexample: it is not the case that every generic exception
handler around a third-party call avoids propagating the exception —
`get_context` prints its error line and then re-raises. -/
theorem handler_fallback_counterexample :
    ¬ (∀ (h : Handler) (e : String),
        producesFallbackOnError h e = true ∧ propagatesOnError h e = false) := by
  intro hAll
  have h2 := (hAll Handler.getContext "boom").2
  simp [propagatesOnError, run_get_context, isError] at h2

/-- C5 amended: every generic exception handler around a third-party call
catches the exception and produces a fallback string (printed or returned);
the handlers of `extract_contact_info`, `send_consultation_confirmation`,
`analyze_conversation` and `save_lead_to_crm` swallow the exception and
return a fallback, while `get_context` and the `rag` tool print the error
and then re-raise, propagating the exception to their callers. -/
theorem handler_fallback_amended (h : Handler) (e : String) :
    producesFallbackOnError h e = true ∧
    (propagatesOnError h e = true ↔ (h = Handler.getContext ∨ h = Handler.ragTool)) := by
  cases h <;>
    simp [producesFallbackOnError, propagatesOnError, errorOutput, isError,
      run_get_context, run_rag, run_extract_contact_info,
      run_send_consultation_confirmation, run_analyze_conversation,
      run_save_lead_to_crm]

/-- C4: `load_documents_from_json` returns exactly one `Document` per element
of the input's `"data"` array, in order; its page content is the element's
`markdown` field if present, otherwise its `content` field, otherwise the
empty string, and its metadata is the element's `metadata` field (empty
mapping if absent). -/
theorem load_documents_spec (raw : RawData) :
    (load_documents_from_json raw).length = raw.data.length ∧
    ∀ (i : Nat) (p : Page), raw.data[i]? = some p →
      (load_documents_from_json raw)[i]? = some (Document.mk
        (match p.markdown with
         | some m => m
         | none =>
           match p.content with
           | some c => c
           | none => "")
        (p.metadata.getD [])) := by
  constructor
  · simp [load_documents_from_json]
  · intro i p hp
    simp only [load_documents_from_json, List.getElem?_map, hp, Option.map_some]
    cases hm : p.markdown <;> cases hc : p.content <;> simp [hm, hc]

/-- C4 witness: loading a one-page input whose page has both a markdown and
a content field yields the markdown and the empty metadata. -/
theorem load_documents_spec_witness :
    (load_documents_from_json sampleRaw)[0]? = some (Document.mk "md" []) :=
  (load_documents_spec sampleRaw).2 0 samplePage rfl

/-- `update_last_response` does not change how many exchanges are stored. -/
lemma setLastAgent_length (l : List Exchange) (r : String) :
    (setLastAgent l r).length = l.length := by
  induction l with
  | nil => rfl
  | cons e es ih =>
    cases es with
    | nil => rfl
    | cons f fs => simpa [setLastAgent] using ih

/-- No operation changes the `max_history` bound. -/
lemma applyOp_max_history (m : ConversationMemory) (op : MemOp) :
    (applyOp m op).max_history = m.max_history := by
  cases op with
  | add u a t =>
    simp only [applyOp, addExchange]
    split <;> rfl
  | updateLast a => rfl
  | getHist => rfl
  | clear => rfl
  | summary => rfl

/-- `add_exchange` with a positive bound: the stored list becomes the bound
or the old length plus one, whichever is smaller, and it is a suffix of the
old list with the new exchange appended. -/
lemma addExchange_exchanges (m : ConversationMemory) (u a t : String)
    (h : 1 ≤ m.max_history) :
    (addExchange m u a t).exchanges.length
      = min m.max_history (m.exchanges.length + 1) ∧
    (addExchange m u a t).exchanges <:+ m.exchanges ++ [⟨u, a, t⟩] := by
  simp only [addExchange]
  split
  · rename_i hlt
    have hk : m.max_history ≠ 0 := by omega
    simp only [pySliceLastK, if_neg hk]
    constructor
    · rw [List.length_drop]
      rw [List.length_append] at hlt ⊢
      simp only [List.length_cons, List.length_nil] at hlt ⊢
      omega
    · exact List.drop_suffix _ _
  · rename_i hge
    rw [List.length_append] at hge ⊢
    simp only [List.length_cons, List.length_nil] at hge ⊢
    exact ⟨by omega, List.suffix_rfl⟩

/-- Running any operation sequence from a state inside the bound keeps the
bound and the stored length inside it. -/
lemma runOps_invariant (ops : List MemOp) (m : ConversationMemory)
    (h1 : 1 ≤ m.max_history) (h2 : m.exchanges.length ≤ m.max_history) :
    (runOps m ops).max_history = m.max_history ∧
    (runOps m ops).exchanges.length ≤ m.max_history := by
  induction ops generalizing m with
  | nil => exact ⟨rfl, h2⟩
  | cons op ops ih =>
    have hmax := applyOp_max_history m op
    have hlen : (applyOp m op).exchanges.length ≤ m.max_history := by
      cases op with
      | add u a t =>
        have := (addExchange_exchanges m u a t h1).1
        simp only [applyOp, this]
        omega
      | updateLast a =>
        simpa [applyOp, updateLastResponse, setLastAgent_length] using h2
      | getHist => exact h2
      | clear => simp [applyOp, clearMemory]
      | summary => exact h2
    have hrec := ih (applyOp m op) (by omega) (by omega)
    rw [runOps]
    omega

/-- C9: for every `ConversationMemory` with `max_history ≥ 1` and every
sequence of its operations from a fresh state, at most `max_history`
exchanges are stored; and `add_exchange` stores min(max_history, old+1)
exchanges and keeps a suffix — the most recent exchanges — of the old list
with the new exchange appended. -/
theorem conversation_memory_invariant (maxH : Nat) (hmax : 1 ≤ maxH)
    (ops : List MemOp) (u a t : String) :
    (runOps (initMemory maxH) ops).exchanges.length ≤ maxH ∧
    (addExchange (runOps (initMemory maxH) ops) u a t).exchanges.length
      = min maxH ((runOps (initMemory maxH) ops).exchanges.length + 1) ∧
    (addExchange (runOps (initMemory maxH) ops) u a t).exchanges <:+
      (runOps (initMemory maxH) ops).exchanges ++ [⟨u, a, t⟩] := by
  have hrun := runOps_invariant ops (initMemory maxH) hmax (by simp [initMemory])
  have hmax' : 1 ≤ (runOps (initMemory maxH) ops).max_history := by
    rw [hrun.1]
    exact hmax
  have hadd := addExchange_exchanges (runOps (initMemory maxH) ops) u a t hmax'
  refine ⟨hrun.2, ?_, hadd.2⟩
  rw [hadd.1, hrun.1]
  rfl

/-- C9 witness: the invariant applied to a concrete memory with bound 1 and
one stored exchange. -/
theorem conversation_memory_invariant_witness :
    (runOps (initMemory 1) [MemOp.add "q" "r" "t0"]).exchanges.length ≤ 1 ∧
    (addExchange (runOps (initMemory 1) [MemOp.add "q" "r" "t0"]) "u" "a" "t1").exchanges.length
      = min 1 ((runOps (initMemory 1) [MemOp.add "q" "r" "t0"]).exchanges.length + 1) ∧
    (addExchange (runOps (initMemory 1) [MemOp.add "q" "r" "t0"]) "u" "a" "t1").exchanges <:+
      (runOps (initMemory 1) [MemOp.add "q" "r" "t0"]).exchanges ++ [⟨"u", "a", "t1"⟩] :=
  conversation_memory_invariant 1 (by decide) [MemOp.add "q" "r" "t0"] "u" "a" "t1"

/-- The context generator makes one block per document. -/
lemma ragEntries_length (l : List Document) (n : Nat) :
    (ragEntries n l).length = l.length := by
  induction l generalizing n with
  | nil => rfl
  | cons d ds ih => simp [ragEntries, ih]

/-- Block `i` of the context generator started at `n` is the block of the
`i`-th document, numbered `n + i`. -/
lemma ragEntries_getElem (l : List Document) (n i : Nat) :
    (ragEntries n l)[i]? = Option.map (fun d => ragEntry (n + i) d) l[i]? := by
  induction l generalizing n i with
  | nil => simp [ragEntries]
  | cons d ds ih =>
    cases i with
    | zero => simp [ragEntries]
    | succ j =>
      have harith : n + 1 + j = n + (j + 1) := by omega
      simp only [ragEntries, List.getElem?_cons_succ, ih (n + 1) j, harith]

/-- C10: the `rag` tool builds the LLM context from at most the first five
retrieved documents — whenever retrieval returns more than five documents,
the context equals the one built from the first five alone, it has exactly
five blocks, and block `i` is the `i`-th document in retrieval order,
numbered `[i+1]`. -/
theorem rag_tool_first_five (docs : List Document) (h : 5 < docs.length) :
    ragContext docs = ragContext (docs.take 5) ∧
    (ragEntries 0 (docs.take 5)).length = 5 ∧
    ∀ (i : Nat) (d : Document), i < 5 → docs[i]? = some d →
      (ragEntries 0 (docs.take 5))[i]? =
        some ("[" ++ toString (i + 1) ++ "] "
          ++ d.metadata.mget "title" "" ++ "\n" ++ d.pageContent) := by
  refine ⟨?_, ?_, ?_⟩
  · simp [ragContext, List.take_take]
  · rw [ragEntries_length, List.length_take]
    omega
  · intro i d hi hd
    rw [ragEntries_getElem, List.getElem?_take, if_pos hi, hd]
    simp [ragEntry]

/-- C10 witness: on a concrete six-document retrieval, the context equals
the one built from the first five documents and its first block is the first
document numbered `[1]`. -/
theorem rag_tool_first_five_witness :
    ragContext sampleSix = ragContext (sampleSix.take 5) ∧
    (ragEntries 0 (sampleSix.take 5))[0]? = some "[1] \nc1" :=
  ⟨(rag_tool_first_five sampleSix (by decide)).1,
   (rag_tool_first_five sampleSix (by decide)).2.2 0 ⟨"c1", []⟩ (by decide) rfl⟩

/-- The ranks of `get_context`'s loop started at `n` are `n+1, n+2, ...`. -/
lemma formatResults_map_rank (l : List Document) (n : Nat) :
    (formatResults n l).map ContextEntry.rank = List.range' (n + 1) l.length := by
  induction l generalizing n with
  | nil => rfl
  | cons d ds ih =>
    simp only [formatResults, List.map_cons, List.length_cons]
    rw [show List.range' (n + 1) (ds.length + 1) = (n + 1) :: List.range' (n + 2) ds.length from rfl]
    rw [ih (n + 1)]
    rfl

/-- The contents of `get_context`'s loop output are the retrieved page
contents, in order. -/
lemma formatResults_map_content (l : List Document) (n : Nat) :
    (formatResults n l).map ContextEntry.content = l.map Document.pageContent := by
  induction l generalizing n with
  | nil => rfl
  | cons d ds ih => simp [formatResults, formatEntry, ih]

/-- The metadata of `get_context`'s loop output are the retrieved metadata,
in order. -/
lemma formatResults_map_metadata (l : List Document) (n : Nat) :
    (formatResults n l).map ContextEntry.metadata = l.map Document.metadata := by
  induction l generalizing n with
  | nil => rfl
  | cons d ds ih => simp [formatResults, formatEntry, ih]

/-- Deduplication by page content yields pairwise distinct contents, none of
them among the contents already seen. -/
lemma uniqueByKey_content_nodup (l : List Document) (seen : List String) :
    ((uniqueByKey l seen).map Document.pageContent).Nodup ∧
    ∀ x ∈ (uniqueByKey l seen).map Document.pageContent, x ∉ seen := by
  induction l generalizing seen with
  | nil => simp [uniqueByKey]
  | cons d ds ih =>
    by_cases hd : d.pageContent ∈ seen
    · simp only [uniqueByKey, if_pos hd]
      exact ih seen
    · simp only [uniqueByKey, if_neg hd, List.map_cons]
      obtain ⟨h1, h2⟩ := ih (d.pageContent :: seen)
      refine ⟨List.nodup_cons.mpr ⟨fun hmem => ?_, h1⟩, ?_⟩
      · exact (h2 _ hmem) (List.mem_cons_self _ _)
      · intro x hx
        rcases List.mem_cons.mp hx with hx | hx
        · rw [hx]
          exact hd
        · intro hxs
          exact (h2 x hx) (List.mem_cons_of_mem _ hxs)

/-- The fused hybrid ranking has pairwise distinct page contents. -/
lemma hybridResults_content_nodup (dense bm25 : List Document) :
    ((hybridResults dense bm25).map Document.pageContent).Nodup := by
  have hperm :
      List.Perm (hybridResults dense bm25)
        (uniqueByKey ([dense, bm25] : List (List Document)).flatten []) := by
    unfold hybridResults weightedReciprocalRank
    exact List.mergeSort_perm _ _
  exact ((hperm.map Document.pageContent).nodup_iff).mpr
    (uniqueByKey_content_nodup _ []).1

/-- C1: `get_context` returns a ranked list — entry `i` carries rank `i+1`
(consecutive from 1 in retrieval order), each entry's content and metadata
equal the fused retrieval's page content and metadata at that position, and
no document appears twice: the page contents are pairwise distinct. -/
theorem get_context_ranked_set (dense bm25 : List Document) :
    (get_context dense bm25).map ContextEntry.rank
      = List.range' 1 (hybridResults dense bm25).length ∧
    (get_context dense bm25).map ContextEntry.content
      = (hybridResults dense bm25).map Document.pageContent ∧
    (get_context dense bm25).map ContextEntry.metadata
      = (hybridResults dense bm25).map Document.metadata ∧
    ((get_context dense bm25).map ContextEntry.content).Nodup := by
  refine ⟨?_, ?_, ?_, ?_⟩
  · exact formatResults_map_rank (hybridResults dense bm25) 0
  · exact formatResults_map_content (hybridResults dense bm25) 0
  · exact formatResults_map_metadata (hybridResults dense bm25) 0
  · rw [show (get_context dense bm25).map ContextEntry.content
        = (formatResults 0 (hybridResults dense bm25)).map ContextEntry.content from rfl]
    rw [formatResults_map_content]
    exact hybridResults_content_nodup dense bm25
